import Mathlib

/-!
Shallow embedding of the duplicate-analysis engine of
`googledrive-dupe-finder` (`find_dupes.go`).

Modelling conventions:
* Go `int64` fields become `Int`; the predicate `int64Valid` records the
  machine range `-2^63 ≤ x < 2^63` of the Go type.
* Go `uint64` values become `Nat` kept below `2^64`; Go's wrapping
  unsigned addition is `addU64` and the Go conversion `uint64(x)` from a
  signed value is `uint64OfInt` (reduction modulo `2^64`).
* The Go map `RemoteManifest = map[string][]*File` becomes an association
  list in iteration order; Go map iteration order is arbitrary, which is
  captured by proving permutation-invariance of the analysis.
* Go slices become lists; `append` on a freshly created slice is list
  concatenation.
-/

namespace FindDupes

/-- Go `File` struct: result of the API file listing. -/
structure File where
  Path : String
  Size : Int
  ContentHash : String
deriving DecidableEq, Repr

/-- The Go field `Size` has type `int64`; this is its machine range. -/
def int64Valid (f : File) : Prop := -(2 : Int) ^ 63 ≤ f.Size ∧ f.Size < 2 ^ 63

instance (f : File) : Decidable (int64Valid f) := by
  unfold int64Valid; infer_instance

/-- Go `RemoteManifest = map[string][]*File`, as an association list whose
order stands for the (arbitrary) map iteration order. -/
abbrev RemoteManifest := List (String × List File)

/-- Go `Duplication` struct. `DuplicateCount` is a Go `int` holding a count,
`DuplicateSize` a Go `uint64`. -/
structure Duplication where
  ContentHash : String
  Files : List File
  DuplicateCount : Nat
  DuplicateSize : Nat
deriving DecidableEq, Repr

/-- Go `DuplicateReport` struct. -/
structure DuplicateReport where
  Duplications : List Duplication
  TotalDuplicateCount : Nat
  TotalDuplicateSize : Nat
deriving DecidableEq, Repr

/-- The modulus of Go `uint64` arithmetic. -/
def U64 : Nat := 2 ^ 64

/-- Go conversion `uint64(x)` applied to an `int64` value: reduction
modulo `2^64`. -/
def uint64OfInt (x : Int) : Nat := (x % (U64 : Int)).toNat

/-- Go `uint64` addition: wraps modulo `2^64`. -/
def addU64 (a b : Nat) : Nat := (a + b) % U64

/-- `ignoreFile`: a file is ignored when its size is under 1000 bytes. -/
def ignoreFile (file : File) : Bool :=
  if file.Size < 1000 then true else false

/-- `filterDuplicateFiles`: keep, in order, the files not rejected by
`ignoreFile` (the Go loop appends survivors to a fresh slice). -/
def filterDuplicateFiles (files : List File) : List File :=
  files.filter (fun file => !ignoreFile file)

/-- The inner loop of `analyzeDuplicates` over `filteredFiles`: the first
file (index 0) is skipped by `continue`; each later file bumps
`duplicateCount` and adds `uint64(f.Size)` into `duplicateSize` with
wrapping `uint64` addition. Returns `(duplicateCount, duplicateSize)`. -/
def dupLoop (filteredFiles : List File) : Nat × Nat :=
  (filteredFiles.drop 1).foldl
    (fun acc f => (acc.1 + 1, addU64 acc.2 (uint64OfInt f.Size))) (0, 0)

/-- One iteration of the `for hash, files := range manifest` loop in
`analyzeDuplicates`: buckets of at most one file are skipped, then buckets
whose filtered sequence has at most one file are skipped; otherwise the
bucket's `Duplication` is appended and the totals are accumulated. -/
def analyzeStep (report : DuplicateReport) (bucket : String × List File) :
    DuplicateReport :=
  if bucket.2.length ≤ 1 then report
  else
    let filteredFiles := filterDuplicateFiles bucket.2
    if filteredFiles.length ≤ 1 then report
    else
      { Duplications := report.Duplications ++
          [⟨bucket.1, filteredFiles, (dupLoop filteredFiles).1,
            (dupLoop filteredFiles).2⟩],
        TotalDuplicateCount :=
          report.TotalDuplicateCount + (dupLoop filteredFiles).1,
        TotalDuplicateSize :=
          addU64 report.TotalDuplicateSize (dupLoop filteredFiles).2 }

/-- The comparator passed to `sort.Slice`: duplications are ordered by
`DuplicateSize` with `>=` (descending, ties allowed either way). -/
def sizeGE (a b : Duplication) : Bool := b.DuplicateSize ≤ a.DuplicateSize

/-- `analyzeDuplicates`: fold the bucket loop over the manifest, then sort
the duplications by size descending. -/
def analyzeDuplicates (manifest : RemoteManifest) : DuplicateReport :=
  let report := manifest.foldl analyzeStep ⟨[], 0, 0⟩
  { report with Duplications := report.Duplications.mergeSort sizeGE }

/-- The payload of a surviving bucket, used to characterise the fold:
`analyzeDuplicates` emits exactly the buckets on which this is `some`. -/
def bucketDup (bucket : String × List File) : Option Duplication :=
  if bucket.2.length ≤ 1 then none
  else
    let filteredFiles := filterDuplicateFiles bucket.2
    if filteredFiles.length ≤ 1 then none
    else some ⟨bucket.1, filteredFiles, (dupLoop filteredFiles).1,
      (dupLoop filteredFiles).2⟩

/-- Mathematical (unbounded) sum of the sizes of a list of files. -/
def sumSizes (files : List File) : Int := (files.map File.Size).sum

/-- `manifest[file.ContentHash] = append(manifest[file.ContentHash], file)`:
append the file to its fingerprint's bucket, creating the bucket if new. -/
def addToManifest (manifest : RemoteManifest) (file : File) : RemoteManifest :=
  match manifest with
  | [] => [(file.ContentHash, [file])]
  | (h, fs) :: rest =>
    if h = file.ContentHash then (h, fs ++ [file]) :: rest
    else (h, fs) :: addToManifest rest file

/-- `getGoogleDriveManifest`, with the external listing collaborator
(`listing.Files`) abstracted as its result: on a listing error the partially
built manifest is dropped and the error returned; otherwise every listed
file is grouped into the manifest by its content hash. -/
def getGoogleDriveManifest (listingResult : Except String (List File)) :
    Except String RemoteManifest :=
  match listingResult with
  | .error e => .error e
  | .ok files => .ok (files.foldl addToManifest [])

/-- The analysis phase of `main`: the scan's error is checked first
(`if driveError != nil { panic }`); only a successful scan reaches
`analyzeDuplicates`. -/
def runMain (listingResult : Except String (List File)) :
    Except String DuplicateReport :=
  match getGoogleDriveManifest listingResult with
  | .error e => .error e
  | .ok manifest => .ok (analyzeDuplicates manifest)

/-! ### Basic facts about the filter policy -/

lemma ignoreFile_eq_true_iff (f : File) : ignoreFile f = true ↔ f.Size < 1000 := by
  unfold ignoreFile
  split <;> simp [*]

lemma ignoreFile_eq_false_iff (f : File) : ignoreFile f = false ↔ 1000 ≤ f.Size := by
  rw [← Bool.not_eq_true, ignoreFile_eq_true_iff]
  omega

lemma filterDuplicateFiles_sublist (files : List File) :
    (filterDuplicateFiles files).Sublist files :=
  List.filter_sublist files

lemma filterDuplicateFiles_length_le (files : List File) :
    (filterDuplicateFiles files).length ≤ files.length :=
  (filterDuplicateFiles_sublist files).length_le

lemma mem_filterDuplicateFiles (files : List File) (f : File) :
    f ∈ filterDuplicateFiles files ↔ f ∈ files ∧ ignoreFile f = false := by
  simp [filterDuplicateFiles, List.mem_filter]

lemma size_ge_of_mem_filterDuplicateFiles (files : List File) (f : File)
    (h : f ∈ filterDuplicateFiles files) : 1000 ≤ f.Size :=
  (ignoreFile_eq_false_iff f).mp ((mem_filterDuplicateFiles files f).mp h).2

/-! ### The Go uint64 conversion and wrapping sum -/

lemma U64_pos : 0 < U64 := by norm_num [U64]

lemma uint64OfInt_cast (x : Int) : (uint64OfInt x : Int) = x % (U64 : Int) := by
  unfold uint64OfInt
  exact Int.toNat_of_nonneg (Int.emod_nonneg x (by norm_num [U64]))

/-- The inner accumulation loop, with a general starting accumulator. -/
lemma foldl_dupLoop (l : List File) (c s : Nat) (hs : s < U64) :
    l.foldl (fun acc f => (acc.1 + 1, addU64 acc.2 (uint64OfInt f.Size))) (c, s) =
      (c + l.length, (s + (l.map fun f => uint64OfInt f.Size).sum) % U64) := by
  induction l generalizing c s with
  | nil => simp [Nat.mod_eq_of_lt hs]
  | cons f t ih =>
    rw [List.foldl_cons]
    have h1 : ((c, s).1 + 1, addU64 (c, s).2 (uint64OfInt f.Size)) =
        (c + 1, addU64 s (uint64OfInt f.Size)) := rfl
    rw [h1, ih (c + 1) (addU64 s (uint64OfInt f.Size)) (Nat.mod_lt _ U64_pos),
      Prod.mk.injEq]
    refine ⟨?_, ?_⟩
    · simp only [List.length_cons]
      omega
    · rw [addU64, Nat.mod_add_mod, List.map_cons, List.sum_cons, Nat.add_assoc]

lemma dupLoop_fst (l : List File) : (dupLoop l).1 = l.length - 1 := by
  unfold dupLoop
  rw [foldl_dupLoop _ 0 0 U64_pos]
  simp

lemma dupLoop_snd (l : List File) :
    (dupLoop l).2 = ((l.drop 1).map fun f => uint64OfInt f.Size).sum % U64 := by
  unfold dupLoop
  rw [foldl_dupLoop _ 0 0 U64_pos]
  simp

lemma natSumCast (l : List File) :
    (l.map fun f => ((uint64OfInt f.Size : Nat) : Int)).sum =
      (l.map fun f => f.Size % (U64 : Int)).sum := by
  induction l with
  | nil => rfl
  | cons f t ih => simp [List.map_cons, List.sum_cons, ih, uint64OfInt_cast]

lemma sumSizes_emod (l : List File) :
    (l.map fun f => f.Size % (U64 : Int)).sum % (U64 : Int) = sumSizes l % (U64 : Int) := by
  unfold sumSizes
  conv_rhs => rw [List.sum_int_mod]
  congr 1
  rw [List.map_map]
  rfl

/-- The size accumulated by the loop is the mathematical sum of the sizes of
the files past the first, reduced modulo `2^64`. -/
lemma dupLoop_snd_int (l : List File) :
    ((dupLoop l).2 : Int) = sumSizes (l.drop 1) % (U64 : Int) := by
  rw [dupLoop_snd, ← sumSizes_emod]
  push_cast
  rw [List.map_map]
  simp only [Function.comp_def]
  rw [natSumCast]

lemma sumSizes_nonneg (l : List File) (h : ∀ f ∈ l, 0 ≤ f.Size) : 0 ≤ sumSizes l := by
  unfold sumSizes
  apply List.sum_nonneg
  intro x hx
  obtain ⟨f, hf, rfl⟩ := List.mem_map.mp hx
  exact h f hf

/-- When the mathematical sum fits in a `uint64`, the loop computes it
exactly. -/
lemma dupLoop_snd_exact (l : List File) (h : ∀ f ∈ l.drop 1, 0 ≤ f.Size)
    (hlt : sumSizes (l.drop 1) < (U64 : Int)) :
    ((dupLoop l).2 : Int) = sumSizes (l.drop 1) := by
  rw [dupLoop_snd_int, Int.emod_eq_of_lt (sumSizes_nonneg _ h) hlt]

/-! ### Agreement between the loop body and its per-bucket characterisation -/

lemma bucketDup_of_small (bucket : String × List File)
    (h : (filterDuplicateFiles bucket.2).length ≤ 1) : bucketDup bucket = none := by
  by_cases h1 : bucket.2.length ≤ 1
  · simp [bucketDup, h1]
  · simp [bucketDup, h1, h]

lemma bucketDup_of_large (bucket : String × List File)
    (h : 2 ≤ (filterDuplicateFiles bucket.2).length) :
    bucketDup bucket = some ⟨bucket.1, filterDuplicateFiles bucket.2,
      (dupLoop (filterDuplicateFiles bucket.2)).1,
      (dupLoop (filterDuplicateFiles bucket.2)).2⟩ := by
  have h1 : ¬ bucket.2.length ≤ 1 := by
    have := filterDuplicateFiles_length_le bucket.2
    omega
  simp only [bucketDup, h1, if_false]
  rw [if_neg (by omega)]

lemma analyzeStep_of_none (report : DuplicateReport) (bucket : String × List File)
    (h : bucketDup bucket = none) : analyzeStep report bucket = report := by
  by_cases h1 : bucket.2.length ≤ 1
  · simp [analyzeStep, h1]
  by_cases h2 : (filterDuplicateFiles bucket.2).length ≤ 1
  · simp [analyzeStep, h1, h2]
  · exact absurd h (by simp [bucketDup, h1, h2])

lemma analyzeStep_of_some (report : DuplicateReport) (bucket : String × List File)
    (d : Duplication) (h : bucketDup bucket = some d) :
    analyzeStep report bucket =
      ⟨report.Duplications ++ [d], report.TotalDuplicateCount + d.DuplicateCount,
       addU64 report.TotalDuplicateSize d.DuplicateSize⟩ := by
  by_cases h1 : bucket.2.length ≤ 1
  · exact absurd h (by simp [bucketDup, h1])
  by_cases h2 : (filterDuplicateFiles bucket.2).length ≤ 1
  · exact absurd h (by simp [bucketDup, h1, h2])
  have hd : (⟨bucket.1, filterDuplicateFiles bucket.2,
      (dupLoop (filterDuplicateFiles bucket.2)).1,
      (dupLoop (filterDuplicateFiles bucket.2)).2⟩ : Duplication) = d := by
    simp only [bucketDup, if_neg h1, if_neg h2, Option.some.injEq] at h
    exact h
  subst hd
  simp only [analyzeStep, if_neg h1, if_neg h2]

lemma bucketDup_some_fields (bucket : String × List File) (d : Duplication)
    (h : bucketDup bucket = some d) :
    d.ContentHash = bucket.1 ∧ d.Files = filterDuplicateFiles bucket.2 ∧
      d.DuplicateCount = (dupLoop d.Files).1 ∧ d.DuplicateSize = (dupLoop d.Files).2 ∧
      2 ≤ d.Files.length := by
  by_cases h1 : bucket.2.length ≤ 1
  · exact absurd h (by simp [bucketDup, h1])
  by_cases h2 : (filterDuplicateFiles bucket.2).length ≤ 1
  · exact absurd h (by simp [bucketDup, h1, h2])
  have hd : (⟨bucket.1, filterDuplicateFiles bucket.2,
      (dupLoop (filterDuplicateFiles bucket.2)).1,
      (dupLoop (filterDuplicateFiles bucket.2)).2⟩ : Duplication) = d := by
    simp only [bucketDup, if_neg h1, if_neg h2, Option.some.injEq] at h
    exact h
  subst hd
  refine ⟨rfl, rfl, rfl, rfl, ?_⟩
  show 2 ≤ (filterDuplicateFiles bucket.2).length
  omega

/-! ### Characterisation of the bucket fold -/

lemma foldl_analyzeStep (l : List (String × List File)) (r : DuplicateReport)
    (hr : r.TotalDuplicateSize < U64) :
    l.foldl analyzeStep r =
      ⟨r.Duplications ++ l.filterMap bucketDup,
       r.TotalDuplicateCount + ((l.filterMap bucketDup).map Duplication.DuplicateCount).sum,
       (r.TotalDuplicateSize +
         ((l.filterMap bucketDup).map Duplication.DuplicateSize).sum) % U64⟩ := by
  induction l generalizing r with
  | nil => simp [Nat.mod_eq_of_lt hr]
  | cons b t ih =>
    rw [List.foldl_cons]
    cases hb : bucketDup b with
    | none =>
      rw [analyzeStep_of_none r b hb, ih r hr, List.filterMap_cons_none hb]
    | some d =>
      rw [analyzeStep_of_some r b d hb,
        ih _ (Nat.mod_lt _ U64_pos), List.filterMap_cons_some hb]
      simp only [List.map_cons, List.sum_cons, DuplicateReport.mk.injEq]
      refine ⟨by simp, by omega, ?_⟩
      rw [addU64, Nat.mod_add_mod, Nat.add_assoc]

/-- Master characterisation of `analyzeDuplicates`: the duplications are the
surviving buckets sorted by the `>=` comparator, and the totals are the sums
of the per-bucket statistics (the size total in wrapping `uint64`
arithmetic). -/
lemma analyzeDuplicates_eq (m : RemoteManifest) :
    analyzeDuplicates m =
      ⟨(m.filterMap bucketDup).mergeSort sizeGE,
       ((m.filterMap bucketDup).map Duplication.DuplicateCount).sum,
       ((m.filterMap bucketDup).map Duplication.DuplicateSize).sum % U64⟩ := by
  unfold analyzeDuplicates
  rw [foldl_analyzeStep m ⟨[], 0, 0⟩ U64_pos]
  simp

lemma analyzeDuplicates_dups (m : RemoteManifest) :
    (analyzeDuplicates m).Duplications = (m.filterMap bucketDup).mergeSort sizeGE := by
  rw [analyzeDuplicates_eq]

lemma analyzeDuplicates_totalCount (m : RemoteManifest) :
    (analyzeDuplicates m).TotalDuplicateCount =
      ((m.filterMap bucketDup).map Duplication.DuplicateCount).sum := by
  rw [analyzeDuplicates_eq]

lemma analyzeDuplicates_totalSize (m : RemoteManifest) :
    (analyzeDuplicates m).TotalDuplicateSize =
      ((m.filterMap bucketDup).map Duplication.DuplicateSize).sum % U64 := by
  rw [analyzeDuplicates_eq]

lemma mem_analyzeDuplicates (m : RemoteManifest) (d : Duplication) :
    d ∈ (analyzeDuplicates m).Duplications ↔ ∃ b, b ∈ m ∧ bucketDup b = some d := by
  rw [analyzeDuplicates_dups, List.mem_mergeSort, List.mem_filterMap]

/-! ### The sort comparator -/

lemma sizeGE_trans (a b c : Duplication) :
    sizeGE a b → sizeGE b c → sizeGE a c := by
  simp only [sizeGE, decide_eq_true_eq]
  omega

lemma sizeGE_total (a b : Duplication) : sizeGE a b || sizeGE b a := by
  simp only [sizeGE, Bool.or_eq_true, decide_eq_true_eq]
  omega

lemma analyzeDuplicates_pairwise (m : RemoteManifest) :
    (analyzeDuplicates m).Duplications.Pairwise (fun a b => sizeGE a b = true) := by
  rw [analyzeDuplicates_dups]
  exact List.sorted_mergeSort sizeGE_trans sizeGE_total _

/-! ### Explicit state passing for the mutation claim -/

/-- `analyzeStep` with the manifest threaded as explicit state: the Go loop
body only reads the manifest (no statement assigns to `manifest` or to a
bucket slice; `filterDuplicateFiles` appends to a fresh nil slice), so the
manifest component is passed through each iteration unchanged. -/
def analyzeStepM (st : DuplicateReport × RemoteManifest)
    (bucket : String × List File) : DuplicateReport × RemoteManifest :=
  (analyzeStep st.1 bucket, st.2)

/-- `analyzeDuplicates` with the manifest as explicit state; the second
component is the manifest as left behind after the call (the sort at the
end touches only `report.Duplications`). -/
def analyzeDuplicatesM (manifest : RemoteManifest) :
    DuplicateReport × RemoteManifest :=
  let st := manifest.foldl analyzeStepM (⟨[], 0, 0⟩, manifest)
  ({ st.1 with Duplications := st.1.Duplications.mergeSort sizeGE }, st.2)

lemma foldl_analyzeStepM (l : List (String × List File)) (r : DuplicateReport)
    (s : RemoteManifest) : l.foldl analyzeStepM (r, s) = (l.foldl analyzeStep r, s) := by
  induction l generalizing r with
  | nil => rfl
  | cons b t ih =>
    rw [List.foldl_cons, List.foldl_cons]
    exact ih (analyzeStep r b)

/-! ### Concrete data for witnesses and counterexamples -/

/-- Two retainable copies of one fingerprint. -/
def twoCopies : List File := [⟨"a", 2000, "h1"⟩, ⟨"b", 2000, "h1"⟩]

/-- A single sub-threshold file. -/
def smallFiles : List File := [⟨"tiny", 10, "hs"⟩]

/-- A manifest with one real duplicate group and one singleton group. -/
def wManifest : RemoteManifest := [("h1", twoCopies), ("h2", [⟨"c", 500, "h2"⟩])]

/-- The largest value of a Go `int64`. -/
def bigSize : Int := 2 ^ 63 - 1

/-- Four maximal-size files with one fingerprint: the three duplicates sum
past `2^64` and the `uint64` accumulation wraps. -/
def overflowFiles : List File := [⟨"a", bigSize, "hov"⟩, ⟨"b", bigSize, "hov"⟩,
  ⟨"c", bigSize, "hov"⟩, ⟨"d", bigSize, "hov"⟩]

def overflowManifest : RemoteManifest := [("hov", overflowFiles)]

/-- Five maximal-size files with one fingerprint. -/
def overflowFiles5 : List File := [⟨"a", bigSize, "hv5"⟩, ⟨"b", bigSize, "hv5"⟩,
  ⟨"c", bigSize, "hv5"⟩, ⟨"d", bigSize, "hv5"⟩, ⟨"e", bigSize, "hv5"⟩]

def overflowManifest5 : RemoteManifest := [("hv5", overflowFiles5)]

/-- Two groups whose per-group duplicate sizes are each `2^63`, so their
`uint64` total wraps to `0`. -/
def halfFiles1 : List File := [⟨"a", 2 ^ 62, "g1"⟩, ⟨"b", 2 ^ 62, "g1"⟩, ⟨"c", 2 ^ 62, "g1"⟩]

def halfFiles2 : List File := [⟨"d", 2 ^ 62, "g2"⟩, ⟨"e", 2 ^ 62, "g2"⟩, ⟨"f", 2 ^ 62, "g2"⟩]

def twoBucketManifest : RemoteManifest := [("g1", halfFiles1), ("g2", halfFiles2)]

/-- Two groups with duplicate sizes 5000 and 3000. -/
def sortFilesA : List File := [⟨"sa", 3000, "s"⟩, ⟨"sb", 3000, "s"⟩]

def sortFilesB : List File := [⟨"sc", 5000, "t"⟩, ⟨"sd", 5000, "t"⟩]

def sortManifest : RemoteManifest := [("s", sortFilesA), ("t", sortFilesB)]

/-! ### Claim C1 -/

/-- Claim C1, amended: for every manifest bucket whose post-filter sequence
has at least two records, the Duplication produced by `analyzeDuplicates`
has `duplicateCount` equal to the length of the filtered sequence minus
one, `duplicateSize` equal to the sum of the sizes of all filtered records
except the first reduced modulo `2^64` (the Go code accumulates the size in
a wrapping `uint64`), hence equal to the exact sum whenever that sum is
below `2^64`, and the filtered sequence preserves the original relative
order of the bucket's records with exactly the records not rejected by the
Filter Policy. -/
theorem analyzeDuplicates_bucket_spec (manifest : RemoteManifest) (hash : String)
    (files : List File) (hmem : (hash, files) ∈ manifest)
    (h2 : 2 ≤ (filterDuplicateFiles files).length) :
    ∃ d, d ∈ (analyzeDuplicates manifest).Duplications ∧
      d.ContentHash = hash ∧
      d.Files = filterDuplicateFiles files ∧
      d.DuplicateCount = (filterDuplicateFiles files).length - 1 ∧
      (d.DuplicateSize : Int) =
        sumSizes ((filterDuplicateFiles files).drop 1) % (U64 : Int) ∧
      (sumSizes ((filterDuplicateFiles files).drop 1) < (U64 : Int) →
        (d.DuplicateSize : Int) = sumSizes ((filterDuplicateFiles files).drop 1)) ∧
      d.Files.Sublist files ∧
      (∀ f, f ∈ d.Files ↔ f ∈ files ∧ ignoreFile f = false) := by
  refine ⟨⟨hash, filterDuplicateFiles files, (dupLoop (filterDuplicateFiles files)).1,
    (dupLoop (filterDuplicateFiles files)).2⟩, ?_, rfl, rfl, ?_, ?_, ?_, ?_, ?_⟩
  · exact (mem_analyzeDuplicates _ _).mpr
      ⟨(hash, files), hmem, bucketDup_of_large (hash, files) h2⟩
  · exact dupLoop_fst _
  · exact dupLoop_snd_int _
  · intro hlt
    refine dupLoop_snd_exact _ (fun f hf => ?_) hlt
    exact le_trans (by norm_num)
      (size_ge_of_mem_filterDuplicateFiles files f (List.drop_subset _ _ hf))
  · exact filterDuplicateFiles_sublist files
  · exact fun f => mem_filterDuplicateFiles files f

/-- Witness for C1: the hypotheses are satisfiable, and at the concrete
manifest the theorem yields a nonempty duplication list. -/
theorem analyzeDuplicates_bucket_spec_witness :
    2 ≤ (filterDuplicateFiles twoCopies).length ∧
    (analyzeDuplicates wManifest).Duplications ≠ [] := by
  refine ⟨by decide, ?_⟩
  obtain ⟨d, hd, -⟩ :=
    analyzeDuplicates_bucket_spec wManifest "h1" twoCopies (by decide) (by decide)
  exact List.ne_nil_of_mem hd

/-- Counterexample to C1 as stated: with four files of the maximal `int64`
size `2^63 - 1` (all retained by the filter), the `uint64` accumulation
wraps, so the produced `duplicateSize` is not the sum of the sizes of the
filtered records past the first. -/
theorem analyzeDuplicates_bucket_spec_cex :
    2 ≤ (filterDuplicateFiles overflowFiles).length ∧
    ("hov", overflowFiles) ∈ overflowManifest ∧
    (analyzeDuplicates overflowManifest).Duplications.map
        (fun d => (d.DuplicateSize : Int)) = [9223372036854775805] ∧
    sumSizes ((filterDuplicateFiles overflowFiles).drop 1) = 27670116110564327421 ∧
    (9223372036854775805 : Int) ≠ 27670116110564327421 := by
  refine ⟨by decide, by decide, ?_, by decide, by decide⟩
  rw [analyzeDuplicates_dups]
  rw [show overflowManifest.filterMap bucketDup =
      [⟨"hov", filterDuplicateFiles overflowFiles, 3, 9223372036854775805⟩] from by decide]
  rw [List.mergeSort_singleton]
  decide

/-! ### Claim C2 -/

/-- Claim C2, amended: for every manifest, `totalDuplicateCount` equals the
sum of `duplicateCount` over all duplications in the report, and
`totalDuplicateSize` equals the sum of `duplicateSize` over all
duplications reduced modulo `2^64` (both totals are accumulated in Go in a
wrapping `uint64` for the size). -/
theorem analyzeDuplicates_totals (manifest : RemoteManifest) :
    (analyzeDuplicates manifest).TotalDuplicateCount =
      ((analyzeDuplicates manifest).Duplications.map Duplication.DuplicateCount).sum ∧
    (analyzeDuplicates manifest).TotalDuplicateSize =
      ((analyzeDuplicates manifest).Duplications.map Duplication.DuplicateSize).sum % U64 := by
  have hperm : (analyzeDuplicates manifest).Duplications.Perm
      (manifest.filterMap bucketDup) := by
    rw [analyzeDuplicates_dups]
    exact List.mergeSort_perm _ _
  constructor
  · rw [analyzeDuplicates_totalCount, (hperm.map Duplication.DuplicateCount).sum_eq]
  · rw [analyzeDuplicates_totalSize, (hperm.map Duplication.DuplicateSize).sum_eq]

/-- Witness for C2 at a concrete manifest. -/
theorem analyzeDuplicates_totals_witness :
    (analyzeDuplicates wManifest).TotalDuplicateCount =
      ((analyzeDuplicates wManifest).Duplications.map Duplication.DuplicateCount).sum :=
  (analyzeDuplicates_totals wManifest).1

/-- Counterexample to C2 as stated: two groups of duplicate size `2^63`
each make the `uint64` total wrap to `0`, which differs from the sum of the
per-group duplicate sizes. -/
theorem analyzeDuplicates_totals_cex :
    (analyzeDuplicates twoBucketManifest).TotalDuplicateSize ≠
      ((analyzeDuplicates twoBucketManifest).Duplications.map
        Duplication.DuplicateSize).sum := by
  have hperm : (analyzeDuplicates twoBucketManifest).Duplications.Perm
      (twoBucketManifest.filterMap bucketDup) := by
    rw [analyzeDuplicates_dups]
    exact List.mergeSort_perm _ _
  rw [analyzeDuplicates_totalSize, (hperm.map Duplication.DuplicateSize).sum_eq]
  decide

/-! ### Claim C3 -/

/-- Claim C3: the duplications sequence is sorted by `duplicateSize` in
descending order: every adjacent pair is non-increasing. -/
theorem analyzeDuplicates_sorted (manifest : RemoteManifest) (i : Nat)
    (h : i + 1 < (analyzeDuplicates manifest).Duplications.length) :
    ((analyzeDuplicates manifest).Duplications.get ⟨i + 1, h⟩).DuplicateSize ≤
      ((analyzeDuplicates manifest).Duplications.get
        ⟨i, Nat.lt_of_succ_lt h⟩).DuplicateSize := by
  have hp := analyzeDuplicates_pairwise manifest
  have hrel := List.pairwise_iff_getElem.mp hp i (i + 1)
    (Nat.lt_of_succ_lt h) h (Nat.lt_succ_self i)
  simpa [sizeGE, List.get_eq_getElem] using hrel

lemma sortManifest_two : 0 + 1 < (analyzeDuplicates sortManifest).Duplications.length := by
  rw [analyzeDuplicates_dups, List.length_mergeSort]
  decide

/-- Witness for C3 at a concrete two-group manifest. -/
theorem analyzeDuplicates_sorted_witness :
    ((analyzeDuplicates sortManifest).Duplications.get
        ⟨0 + 1, sortManifest_two⟩).DuplicateSize ≤
      ((analyzeDuplicates sortManifest).Duplications.get
        ⟨0, Nat.lt_of_succ_lt sortManifest_two⟩).DuplicateSize :=
  analyzeDuplicates_sorted sortManifest 0 sortManifest_two

/-! ### Claim C4 -/

/-- Claim C4: `ignoreFile f` is true exactly when `f.Size < 1000`; a file of
size 999 is ignored and a file of size 1000 is not (the predicate is a pure
function of the single record). -/
theorem ignoreFile_spec :
    (∀ f : File, ignoreFile f = true ↔ f.Size < 1000) ∧
    ignoreFile ⟨"boundary999", 999, "h"⟩ = true ∧
    ignoreFile ⟨"boundary1000", 1000, "h"⟩ = false :=
  ⟨ignoreFile_eq_true_iff, by decide, by decide⟩

/-- Witness for C4: the characterisation applied at a concrete file. -/
theorem ignoreFile_spec_witness : ignoreFile ⟨"w", 500, "h"⟩ = true :=
  (ignoreFile_spec.1 ⟨"w", 500, "h"⟩).mpr (by decide)

/-! ### Claim C5 -/

/-- Claim C5: a bucket whose post-filter sequence has fewer than two records
(which covers buckets of at most one record before filtering, since
filtering never lengthens) contributes nothing to the report — removing it
leaves the report unchanged — and, when the manifest's fingerprints are
distinct, no duplication carrying that fingerprint appears. -/
theorem analyzeDuplicates_small_bucket_dropped (l1 l2 : RemoteManifest)
    (hash : String) (files : List File)
    (hsmall : (filterDuplicateFiles files).length ≤ 1) :
    analyzeDuplicates (l1 ++ (hash, files) :: l2) = analyzeDuplicates (l1 ++ l2) ∧
    (((l1 ++ (hash, files) :: l2).map Prod.fst).Nodup →
      ∀ d ∈ (analyzeDuplicates (l1 ++ (hash, files) :: l2)).Duplications,
        d.ContentHash ≠ hash) := by
  have hnone : bucketDup (hash, files) = none := bucketDup_of_small _ hsmall
  have hfm : (l1 ++ (hash, files) :: l2).filterMap bucketDup =
      (l1 ++ l2).filterMap bucketDup := by
    rw [List.filterMap_append, List.filterMap_append, List.filterMap_cons_none hnone]
  have heq : analyzeDuplicates (l1 ++ (hash, files) :: l2) =
      analyzeDuplicates (l1 ++ l2) := by
    rw [analyzeDuplicates_eq, analyzeDuplicates_eq, hfm]
  refine ⟨heq, fun hnd d hd hcon => ?_⟩
  rw [heq] at hd
  obtain ⟨b, hb, hsome⟩ := (mem_analyzeDuplicates _ _).mp hd
  have hhash : d.ContentHash = b.1 := (bucketDup_some_fields b d hsome).1
  have hmemkey : b.1 ∈ (l1 ++ l2).map Prod.fst := List.mem_map_of_mem Prod.fst hb
  rw [List.map_append, List.map_cons] at hnd
  have hnot := (List.nodup_cons.mp (List.nodup_middle.mp hnd)).1
  rw [← List.map_append] at hnot
  have hbhash : b.1 = hash := by rw [← hhash, hcon]
  rw [hbhash] at hmemkey
  exact hnot hmemkey

/-- Witness for C5: dropping a concrete all-filtered bucket leaves the
report unchanged. -/
theorem analyzeDuplicates_small_bucket_dropped_witness :
    analyzeDuplicates ([("h1", twoCopies)] ++ ("hs", smallFiles) :: []) =
      analyzeDuplicates ([("h1", twoCopies)] ++ []) :=
  (analyzeDuplicates_small_bucket_dropped [("h1", twoCopies)] [] "hs" smallFiles
    (by decide)).1

/-! ### Claim C6 -/

/-- Claim C6: if the upstream listing fails, the error is returned to the
caller as a hard failure, the partially built manifest is discarded without
being analysed, and no report is produced; analysis runs exactly when the
scan completed without error, on the manifest grouped from the listed
files. -/
theorem runMain_error_propagation :
    (∀ e : String, runMain (Except.error e) = Except.error e ∧
      ∀ r : DuplicateReport, runMain (Except.error e) ≠ Except.ok r) ∧
    (∀ files : List File, runMain (Except.ok files) =
      Except.ok (analyzeDuplicates (files.foldl addToManifest []))) :=
  ⟨fun _ => ⟨rfl, fun _ h => Except.noConfusion h⟩, fun _ => rfl⟩

/-- Witness for C6 at a concrete listing error. -/
theorem runMain_error_propagation_witness :
    runMain (Except.error "scan failed") = Except.error "scan failed" :=
  (runMain_error_propagation.1 "scan failed").1

/-! ### Claim C7 -/

/-- Claim C7: `analyzeDuplicates` is deterministic as to content: on two
manifests that are permutations of each other (the same Go map iterated in
two different orders), the reports contain the same duplications up to
order and identical totals; as pure functions of the manifest list, equal
inputs trivially give equal reports, so repeated calls agree as well. -/
theorem analyzeDuplicates_perm_invariant (m1 m2 : RemoteManifest) (hp : m1.Perm m2) :
    (analyzeDuplicates m1).Duplications.Perm (analyzeDuplicates m2).Duplications ∧
    (analyzeDuplicates m1).TotalDuplicateCount =
      (analyzeDuplicates m2).TotalDuplicateCount ∧
    (analyzeDuplicates m1).TotalDuplicateSize =
      (analyzeDuplicates m2).TotalDuplicateSize := by
  have hfm : (m1.filterMap bucketDup).Perm (m2.filterMap bucketDup) :=
    hp.filterMap bucketDup
  refine ⟨?_, ?_, ?_⟩
  · rw [analyzeDuplicates_dups, analyzeDuplicates_dups]
    exact (List.mergeSort_perm _ _).trans (hfm.trans (List.mergeSort_perm _ _).symm)
  · rw [analyzeDuplicates_totalCount, analyzeDuplicates_totalCount,
      (hfm.map Duplication.DuplicateCount).sum_eq]
  · rw [analyzeDuplicates_totalSize, analyzeDuplicates_totalSize,
      (hfm.map Duplication.DuplicateSize).sum_eq]

def wPermA : RemoteManifest := [("h1", twoCopies), ("hs", smallFiles)]

def wPermB : RemoteManifest := [("hs", smallFiles), ("h1", twoCopies)]

/-- Witness for C7 at two concrete permuted manifests. -/
theorem analyzeDuplicates_perm_invariant_witness :
    (analyzeDuplicates wPermA).TotalDuplicateSize =
      (analyzeDuplicates wPermB).TotalDuplicateSize :=
  (analyzeDuplicates_perm_invariant wPermA wPermB
    (List.Perm.swap ("hs", smallFiles) ("h1", twoCopies) [])).2.2

/-! ### Claim C8 -/

/-- Claim C8: `analyzeDuplicates` does not mutate its manifest: with the
manifest threaded through the loop as explicit state (each Go statement
only reads it), the manifest left behind is exactly the one passed in —
same fingerprints mapped to the same record sequences in the same order —
while the report component agrees with `analyzeDuplicates`. -/
theorem analyzeDuplicatesM_no_mutation (manifest : RemoteManifest) :
    (analyzeDuplicatesM manifest).2 = manifest ∧
    (analyzeDuplicatesM manifest).1 = analyzeDuplicates manifest := by
  constructor <;>
    simp only [analyzeDuplicatesM, analyzeDuplicates, foldl_analyzeStepM]

/-- Witness for C8 at a concrete manifest. -/
theorem analyzeDuplicatesM_no_mutation_witness :
    (analyzeDuplicatesM wManifest).2 = wManifest :=
  (analyzeDuplicatesM_no_mutation wManifest).1

/-! ### Claim C10 -/

/-- Claim C10, amended: for every manifest of valid `int64` records
(negative sizes included), every file whose size is accumulated into
`duplicateSize` survived the filter and so has size at least 1000; the
signed-to-unsigned conversion is therefore never applied to a negative
value and converts each accumulated size exactly; and each duplication's
`duplicateSize` equals the mathematical sum of the retained files' sizes
(excluding the keeper) reduced modulo `2^64` — exactly that sum whenever it
is below `2^64` (the wrapping `uint64` accumulation is why the exactness is
only modulo `2^64`). -/
theorem analyzeDuplicates_sizes_safe (manifest : RemoteManifest)
    (hval : ∀ b ∈ manifest, ∀ f ∈ b.2, int64Valid f) :
    ∀ d ∈ (analyzeDuplicates manifest).Duplications,
      (∀ f ∈ d.Files, 1000 ≤ f.Size) ∧
      (∀ f ∈ d.Files.drop 1, 0 ≤ f.Size ∧ (uint64OfInt f.Size : Int) = f.Size) ∧
      (d.DuplicateSize : Int) = sumSizes (d.Files.drop 1) % (U64 : Int) ∧
      (sumSizes (d.Files.drop 1) < (U64 : Int) →
        (d.DuplicateSize : Int) = sumSizes (d.Files.drop 1)) := by
  intro d hd
  obtain ⟨b, hb, hsome⟩ := (mem_analyzeDuplicates _ _).mp hd
  obtain ⟨hhash, hfiles, hcount, hsize, hlen⟩ := bucketDup_some_fields b d hsome
  have hmemsize : ∀ f ∈ d.Files, 1000 ≤ f.Size := by
    intro f hf
    rw [hfiles] at hf
    exact size_ge_of_mem_filterDuplicateFiles _ _ hf
  have hnn : ∀ f ∈ d.Files.drop 1, 0 ≤ f.Size := fun f hf =>
    le_trans (by norm_num) (hmemsize f (List.drop_subset _ _ hf))
  refine ⟨hmemsize, fun f hf => ⟨hnn f hf, ?_⟩, ?_, fun hlt => ?_⟩
  · have hmemb : f ∈ b.2 := by
      have := List.drop_subset _ _ hf
      rw [hfiles] at this
      exact ((mem_filterDuplicateFiles _ _).mp this).1
    have hv : int64Valid f := hval b hb f hmemb
    rw [uint64OfInt_cast,
      Int.emod_eq_of_lt (hnn f hf) (lt_of_lt_of_le hv.2 (by norm_num [U64]))]
  · rw [hsize]
    exact dupLoop_snd_int d.Files
  · rw [hsize]
    exact dupLoop_snd_exact d.Files hnn hlt

lemma wManifest_dups :
    (analyzeDuplicates wManifest).Duplications = [⟨"h1", twoCopies, 1, 2000⟩] := by
  rw [analyzeDuplicates_dups]
  rw [show wManifest.filterMap bucketDup = [⟨"h1", twoCopies, 1, 2000⟩] from by decide]
  rw [List.mergeSort_singleton]

/-- Witness for C10: the conclusion instantiated at the one duplication of
a concrete manifest of valid records. -/
theorem analyzeDuplicates_sizes_safe_witness :
    ((⟨"h1", twoCopies, 1, 2000⟩ : Duplication).DuplicateSize : Int) =
      sumSizes ((⟨"h1", twoCopies, 1, 2000⟩ : Duplication).Files.drop 1) % (U64 : Int) :=
  (analyzeDuplicates_sizes_safe wManifest (by decide) ⟨"h1", twoCopies, 1, 2000⟩
    (by rw [wManifest_dups]; exact List.mem_singleton_self _)).2.2.1

/-- Counterexample to C10 as stated: five valid `int64` files of size
`2^63 - 1` give a duplicate-size sum of `4 * (2^63 - 1)`, which exceeds
`2^64`, so the accumulated `duplicateSize` is not the exact mathematical
sum. -/
theorem analyzeDuplicates_sizes_safe_cex :
    overflowManifest5.all (fun b => b.2.all (fun f => decide (int64Valid f))) = true ∧
    (analyzeDuplicates overflowManifest5).Duplications.map
        (fun d => ((d.DuplicateSize : Int), sumSizes (d.Files.drop 1))) =
      [(18446744073709551612, 36893488147419103228)] ∧
    (18446744073709551612 : Int) ≠ 36893488147419103228 := by
  refine ⟨by decide, ?_, by decide⟩
  rw [analyzeDuplicates_dups]
  rw [show overflowManifest5.filterMap bucketDup =
      [⟨"hv5", overflowFiles5, 4, 18446744073709551612⟩] from by decide]
  rw [List.mergeSort_singleton]
  decide

end FindDupes
